import Mathlib

/-!
Verification of the Google Drive download service against its specification.

The development shallowly embeds the TypeScript source:
  * `src/utils/utils.ts` — link-pattern extraction (`extractFileId`),
  * the download route handler (`GET` in `src/app/api/download/route.ts`),
  * the file-metadata route handler and the `extractGoogleDriveFileId` helper
    from the same file.

JavaScript strings are modelled as Lean `String` (operated on through
`String.data : List Char`), the regexes of the source as explicit
leftmost-match search functions, `axios` requests as a function from an
abstract upstream response to `Except Unit`, where `Except.error` models a
thrown error (a network failure, or a response status rejected by the
request's `validateStatus` predicate), and the handlers as total functions
from an upstream oracle to an outcome.
-/

set_option maxRecDepth 4000

deriving instance DecidableEq for Except

namespace GDrive

/-! ## JavaScript string primitives -/

/-- Truthiness of a nullable JS string: `null`/`undefined` and `""` are falsy. -/
def strTruthy : Option String → Bool
  | none => false
  | some s => !(s == "")

/-- The JS idiom `v || d` on a nullable string `v`. -/
def orTruthy (v : Option String) (d : String) : String :=
  match v with
  | some s => if s == "" then d else s
  | none => d

/-- Does `pat` occur as a contiguous block inside the list?  Mirrors
`String.prototype.includes`. -/
def occursIn (pat : List Char) : List Char → Bool
  | [] => pat.isPrefixOf []
  | c :: rest => pat.isPrefixOf (c :: rest) || occursIn pat rest

/-- `s.includes(sub)` of JavaScript. -/
def containsStr (s sub : String) : Bool := occursIn sub.data s.data

/-- `s.startsWith(p)` of JavaScript. -/
def strStartsWith (s p : String) : Bool := p.data.isPrefixOf s.data

/-- `s.endsWith(p)` of JavaScript. -/
def strEndsWith (s p : String) : Bool := p.data.isSuffixOf s.data

/-- ASCII lower-casing of one character, as `String.prototype.toLowerCase`
acts on the extension tokens appearing in the source. -/
def lowerChar (c : Char) : Char :=
  if 'A' ≤ c ∧ c ≤ 'Z' then Char.ofNat (c.toNat + 32) else c

/-- `s.toLowerCase()` on the ASCII strings used by the source. -/
def lowerStr (s : String) : String := String.mk (s.data.map lowerChar)

/-! ## The anchored extension regexes of `getProperFilename`

`/\.[^/.]+$/` and `/\.([^.]+)$/` both anchor at the end of the string, so
both are decided by the segment after the last `'.'`. -/

/-- Split a character list at its last `'.'`: `some (before, after)`, or
`none` when no dot occurs. -/
def splitLastDot : List Char → Option (List Char × List Char)
  | [] => none
  | c :: rest =>
    match splitLastDot rest with
    | some (pre, suf) => some (c :: pre, suf)
    | none => if c = '.' then some ([], rest) else none

/-- `baseName.replace(/\.[^\/.]+$/, "")`: drop a final dot-extension that is
nonempty and contains no `'/'`; otherwise the regex does not match and the
string is unchanged. -/
def stripExtension (s : String) : String :=
  match splitLastDot s.data with
  | some (pre, suf) => if suf ≠ [] ∧ '/' ∉ suf then String.mk pre else s
  | none => s

/-- The capture of `baseName.match(/\.([^.]+)$/)`: the nonempty segment after
the last dot. -/
def extOf (s : String) : Option String :=
  match splitLastDot s.data with
  | some (_, suf) => if suf ≠ [] then some (String.mk suf) else none
  | none => none

/-! ## The static MIME tables of the download route -/

/-- JS object lookup on a literal string-keyed table. -/
def lookupTable : List (String × String) → String → Option String
  | [], _ => none
  | (k, v) :: rest, key => if key == k then some v else lookupTable rest key

/-- `mimeToExtension` of the download route, verbatim. -/
def mimeToExtension : List (String × String) :=
  [("application/pdf", "pdf"),
   ("application/vnd.openxmlformats-officedocument.wordprocessingml.document", "docx"),
   ("application/msword", "doc"),
   ("application/vnd.oasis.opendocument.text", "odt"),
   ("application/rtf", "rtf"),
   ("text/plain", "txt"),
   ("text/html", "html"),
   ("text/css", "css"),
   ("text/javascript", "js"),
   ("text/markdown", "md"),
   ("application/vnd.openxmlformats-officedocument.spreadsheetml.sheet", "xlsx"),
   ("application/vnd.ms-excel", "xls"),
   ("application/vnd.oasis.opendocument.spreadsheet", "ods"),
   ("text/csv", "csv"),
   ("text/tab-separated-values", "tsv"),
   ("application/vnd.openxmlformats-officedocument.presentationml.presentation", "pptx"),
   ("application/vnd.ms-powerpoint", "ppt"),
   ("application/vnd.oasis.opendocument.presentation", "odp"),
   ("image/jpeg", "jpg"),
   ("image/png", "png"),
   ("image/gif", "gif"),
   ("image/bmp", "bmp"),
   ("image/webp", "webp"),
   ("image/svg+xml", "svg"),
   ("image/tiff", "tiff"),
   ("audio/mpeg", "mp3"),
   ("audio/wav", "wav"),
   ("audio/ogg", "ogg"),
   ("audio/flac", "flac"),
   ("audio/aac", "aac"),
   ("video/mp4", "mp4"),
   ("video/mpeg", "mpeg"),
   ("video/webm", "webm"),
   ("video/quicktime", "mov"),
   ("video/x-msvideo", "avi"),
   ("application/zip", "zip"),
   ("application/x-zip-compressed", "zip"),
   ("application/x-rar-compressed", "rar"),
   ("application/x-tar", "tar"),
   ("application/x-7z-compressed", "7z"),
   ("application/gzip", "gz"),
   ("application/vnd.google-apps.document", "docx"),
   ("application/vnd.google-apps.spreadsheet", "xlsx"),
   ("application/vnd.google-apps.presentation", "pptx"),
   ("application/vnd.google-apps.drawing", "png"),
   ("application/vnd.google-apps.form", "html"),
   ("application/vnd.google-apps.script", "json")]

/-- Branch of `getProperFilename` taken when no format is specified. -/
def properFilenameNoFormat (baseName contentType : String) : String :=
  match extOf baseName with
  | some ext =>
    let existingExt := lowerStr ext
    match lookupTable mimeToExtension contentType with
    | some expectedExt =>
      if existingExt == expectedExt then baseName
      else stripExtension baseName ++ "." ++ expectedExt
    | none => baseName
  | none => baseName ++ "." ++ ((lookupTable mimeToExtension contentType).getD "bin")

/-- `getProperFilename` of the download route. -/
def getProperFilename (baseName contentType : String)
    (specifiedFormat : Option String) : String :=
  if strTruthy specifiedFormat then
    stripExtension baseName ++ "." ++ orTruthy specifiedFormat ""
  else properFilenameNoFormat baseName contentType

/-! ## The link-pattern regexes

Every pattern of `extractFileId` / `extractGoogleDriveFileId` is a literal
followed by a greedy nonempty character-class capture, except the generic
editor pattern `docs\.google\.com\/\w+\/d\/([^\/\?]+)`, which interposes a
`\w+` segment.  `searchSimple` / `searchDocs` realise the leftmost-match
semantics of `String.prototype.match`. -/

/-- Character class `[^\/\?]`. -/
def notSlashQ (c : Char) : Bool := !(c = '/' || c = '?')

/-- Character class `[^&]`. -/
def notAmp (c : Char) : Bool := !(c = '&')

/-- Character class `\w` = `[A-Za-z0-9_]`. -/
def isWordChar (c : Char) : Bool := c.isAlphanum || c = '_'

/-- Match `lit` followed by a greedy nonempty `cls`-run at the head of `cs`,
returning the capture. -/
def matchSimpleAt (lit : List Char) (cls : Char → Bool) (cs : List Char) :
    Option (List Char) :=
  if lit.isPrefixOf cs then
    let cap := (cs.drop lit.length).takeWhile cls
    if cap = [] then none else some cap
  else none

/-- Leftmost match of a literal-then-capture pattern. -/
def searchSimple (lit : List Char) (cls : Char → Bool) :
    List Char → Option (List Char)
  | [] => none
  | c :: rest =>
    match matchSimpleAt lit cls (c :: rest) with
    | some cap => some cap
    | none => searchSimple lit cls rest

/-- Match `docs\.google\.com\/\w+\/d\/([^\/\?]+)` at the head of `cs`. -/
def matchDocsAt (cs : List Char) : Option (List Char) :=
  if "docs.google.com/".data.isPrefixOf cs then
    let rest := cs.drop "docs.google.com/".data.length
    let w := rest.takeWhile isWordChar
    if w = [] then none
    else
      let rest2 := rest.drop w.length
      if "/d/".data.isPrefixOf rest2 then
        let cap := (rest2.drop "/d/".data.length).takeWhile notSlashQ
        if cap = [] then none else some cap
      else none
  else none

/-- Leftmost match of the generic editor pattern. -/
def searchDocs : List Char → Option (List Char)
  | [] => none
  | c :: rest =>
    match matchDocsAt (c :: rest) with
    | some cap => some cap
    | none => searchDocs rest

/-- Pattern `drive\.google\.com\/file\/d\/([^\/\?]+)`. -/
def pat1 (cs : List Char) : Option (List Char) :=
  searchSimple "drive.google.com/file/d/".data notSlashQ cs

/-- Pattern `drive\.google\.com\/open\?id=([^&]+)`. -/
def pat2 (cs : List Char) : Option (List Char) :=
  searchSimple "drive.google.com/open?id=".data notAmp cs

/-- Pattern `docs\.google\.com\/\w+\/d\/([^\/\?]+)`. -/
def pat3 (cs : List Char) : Option (List Char) := searchDocs cs

/-- Pattern `drive\.google\.com\/uc\?id=([^&]+)`. -/
def pat4 (cs : List Char) : Option (List Char) :=
  searchSimple "drive.google.com/uc?id=".data notAmp cs

/-- Pattern `docs\.google\.com\/spreadsheets\/d\/([^\/\?]+)`. -/
def pat5 (cs : List Char) : Option (List Char) :=
  searchSimple "docs.google.com/spreadsheets/d/".data notSlashQ cs

/-- Pattern `docs\.google\.com\/presentation\/d\/([^\/\?]+)`. -/
def pat6 (cs : List Char) : Option (List Char) :=
  searchSimple "docs.google.com/presentation/d/".data notSlashQ cs

/-- `extractFileId` of `src/utils/utils.ts`: six patterns in order, first
match with a nonempty capture wins (captures are always nonempty). -/
def extractFileId (url : String) : Option String :=
  match pat1 url.data with
  | some c => some (String.mk c)
  | none =>
  match pat2 url.data with
  | some c => some (String.mk c)
  | none =>
  match pat3 url.data with
  | some c => some (String.mk c)
  | none =>
  match pat4 url.data with
  | some c => some (String.mk c)
  | none =>
  match pat5 url.data with
  | some c => some (String.mk c)
  | none =>
  match pat6 url.data with
  | some c => some (String.mk c)
  | none => none

/-- `extractGoogleDriveFileId` of the helper module: the first four patterns
of `extractFileId`, in the same order. -/
def extractGoogleDriveFileId (url : String) : Option String :=
  match pat1 url.data with
  | some c => some (String.mk c)
  | none =>
  match pat2 url.data with
  | some c => some (String.mk c)
  | none =>
  match pat3 url.data with
  | some c => some (String.mk c)
  | none =>
  match pat4 url.data with
  | some c => some (String.mk c)
  | none => none

/-! ## HTTP model

An upstream body is abstracted to an identifying tag plus its byte length —
the handlers use a body only through truthiness, `byteLength` and identity
of what is finally delivered.  `Except.error ()` models a thrown error. -/

/-- An upstream response body (`data` of an axios response). -/
structure Payload where
  tag : Nat
  len : Nat
deriving DecidableEq, Repr

/-- An upstream HTTP response as the download route observes it. -/
structure Resp where
  status : Nat
  contentType : Option String
  data : Option Payload
deriving DecidableEq, Repr

/-- `response.data.byteLength` (0 for an absent body). -/
def Resp.byteLength (r : Resp) : Nat :=
  match r.data with
  | some p => p.len
  | none => 0

/-- `response.headers["content-type"]?.includes(sub)`, `undefined` giving
`false`. -/
def respCtIncludes (r : Resp) (sub : String) : Bool :=
  match r.contentType with
  | some ct => containsStr ct sub
  | none => false

/-- An `axios.get`: a network failure propagates, and a response whose status
the `validateStatus` predicate rejects is thrown as an error. -/
def axiosReq (validate : Nat → Bool) (r : Except Unit Resp) : Except Unit Resp :=
  match r with
  | .error e => .error e
  | .ok resp => if validate resp.status then .ok resp else .error ()

/-- The metadata probe's response (`name`, `mimeType` fields of the JSON). -/
structure MetaResp where
  status : Nat
  name : Option String
  mimeType : Option String
deriving DecidableEq, Repr

/-- `axios.get` for the metadata probe. -/
def axiosMeta (validate : Nat → Bool) (r : Except Unit MetaResp) :
    Except Unit MetaResp :=
  match r with
  | .error e => .error e
  | .ok m => if validate m.status then .ok m else .error ()

/-- The upstream oracle: what each endpoint the download route can contact
would answer on this request. -/
structure Upstream where
  metaResp : Except Unit MetaResp
  printResp : Except Unit Resp
  embedResp : Except Unit Resp
  exportResp : Except Unit Resp
  fileResp : Except Unit Resp
  altResp : Except Unit Resp
  directResp : Except Unit Resp
deriving Repr

/-- What the download route hands back to its caller. -/
inductive Outcome where
  | deliver (status : Nat) (contentType : String) (filename : String)
      (payload : Option Payload)
  | redirect (status : Nat) (location : String)
  | jsonError (status : Nat) (msg : String)
deriving DecidableEq, Repr

/-- `contentTypeMap` of the Google-Docs export branch, verbatim. -/
def contentTypeMap : List (String × String) :=
  [("pdf", "application/pdf"),
   ("docx", "application/vnd.openxmlformats-officedocument.wordprocessingml.document"),
   ("xlsx", "application/vnd.openxmlformats-officedocument.spreadsheetml.sheet"),
   ("pptx", "application/vnd.openxmlformats-officedocument.presentationml.presentation"),
   ("csv", "text/csv"),
   ("txt", "text/plain"),
   ("rtf", "application/rtf")]

/-- The export format the Google-Docs branch settles on:
`format || "pdf"`, then, when `format` is falsy, the type-specific default. -/
def effectiveExportFormat (format : Option String) (mimeType : String) : String :=
  let base := orTruthy format "pdf"
  if !strTruthy format then
    if mimeType == "application/vnd.google-apps.spreadsheet" then "xlsx"
    else if mimeType == "application/vnd.google-apps.presentation" then "pptx"
    else if mimeType == "application/vnd.google-apps.document" then "docx"
    else base
  else base

/-- The view-only / forced-PDF block: print sub-attempt, then embed
sub-attempt.  `Except.ok none` means both sub-attempts fell through; an
error is a network failure inside the block (both requests accept every
status). -/
def viewOnlyAttempts (fileName : String) (printResp embedResp : Except Unit Resp) :
    Except Unit (Option Outcome) :=
  match axiosReq (fun _ => true) printResp with
  | .error e => .error e
  | .ok pr =>
    if pr.status = 200 ∧ pr.data.isSome ∧ pr.byteLength > 1000 ∧
        ¬ respCtIncludes pr "text/html" then
      .ok (some (.deliver 200 "application/pdf"
        (getProperFilename fileName "application/pdf" (some "pdf")) pr.data))
    else
      match axiosReq (fun _ => true) embedResp with
      | .error e => .error e
      | .ok er =>
        if er.status = 200 then
          .ok (some (.deliver 200 "application/pdf"
            (getProperFilename fileName "application/pdf" (some "pdf")) er.data))
        else .ok none

/-- The Google-Docs export branch.  Its request's `validateStatus` accepts
only 200, so any other status is thrown — there is no catch before the
handler's top level. -/
def googleAppsSection (fileName mimeType : String) (format : Option String)
    (exportResp : Except Unit Resp) : Except Unit (Option Outcome) :=
  let exportFormat := effectiveExportFormat format mimeType
  match axiosReq (fun s => s = 200) exportResp with
  | .error e => .error e
  | .ok ex =>
    if ex.status = 200 ∧ ex.data.isSome then
      let contentType := (lookupTable contentTypeMap exportFormat).getD
        "application/octet-stream"
      .ok (some (.deliver 200 contentType
        (getProperFilename fileName contentType (some exportFormat)) ex.data))
    else .ok none

/-- The interstitial heuristic of the standard download block: an HTML-marked
content type on a payload under the 1,000,000-byte ceiling. -/
def isLikelyErrorPage (contentType : String) (len : Nat) : Bool :=
  containsStr contentType "text/html" && len < 1000000

/-- The standard download block: `validateStatus` accepts 200/303/302; on a
200 with a body, an HTML-typed body under the 1,000,000-byte ceiling
triggers the alternate-URL retry, and when that retry also fails the
original response is delivered anyway. -/
def standardSection (fileName mimeType : String)
    (fileResp altResp : Except Unit Resp) : Except Unit (Option Outcome) :=
  match axiosReq (fun s => s = 200 ∨ s = 303 ∨ s = 302) fileResp with
  | .error e => .error e
  | .ok fr =>
    if fr.status = 200 ∧ fr.data.isSome then
      let responseContentType := orTruthy fr.contentType mimeType
      if isLikelyErrorPage responseContentType fr.byteLength then
        match axiosReq (fun _ => true) altResp with
        | .error e => .error e
        | .ok ar =>
          let altContentType := orTruthy ar.contentType mimeType
          if ar.status = 200 ∧ (¬ containsStr altContentType "text/html" ∨
              ar.byteLength > 1000000) then
            .ok (some (.deliver 200 altContentType
              (getProperFilename fileName altContentType none) ar.data))
          else
            .ok (some (.deliver 200 responseContentType
              (getProperFilename fileName responseContentType none) fr.data))
      else
        .ok (some (.deliver 200 responseContentType
          (getProperFilename fileName responseContentType none) fr.data))
    else .ok none

/-- The last-resort direct download, then the redirect-to-viewer fallback.
The request's `validateStatus` accepts only 200. -/
def lastResortSection (fid fileName mimeType : String)
    (directResp : Except Unit Resp) : Except Unit Outcome :=
  match axiosReq (fun s => s = 200) directResp with
  | .error e => .error e
  | .ok dr =>
    if dr.status = 200 ∧ dr.data.isSome then
      let contentType := orTruthy dr.contentType mimeType
      .ok (.deliver 200 contentType
        (getProperFilename fileName contentType none) dr.data)
    else
      .ok (.redirect 302 ("https://drive.google.com/file/d/" ++ fid ++ "/view"))

/-- Sequencing of the route's early returns: a produced response returns, a
fall-through continues with the rest of the handler, an uncaught error
propagates. -/
def chainStep (s : Except Unit (Option Outcome))
    (next : Unit → Except Unit Outcome) : Except Unit Outcome :=
  match s with
  | .error e => .error e
  | .ok (some o) => .ok o
  | .ok none => next ()

/-- The resolved `(fileName, mimeType)` pair: the metadata probe sits in its
own `try`/`catch` with `validateStatus` accepting every status below 500, and
any failure falls back to the defaults. -/
def metaNames (fid : String) (metaResp : Except Unit MetaResp) : String × String :=
  let defaults : String × String := ("file_" ++ fid, "application/octet-stream")
  match axiosMeta (fun s => s < 500) metaResp with
  | .error _ => defaults
  | .ok m =>
    if m.status = 200 then (orTruthy m.name defaults.1, orTruthy m.mimeType defaults.2)
    else defaults

/-- The view-only block guarded by its entry condition, with its own
`catch` that logs and continues past the block. -/
def viewOnlyStep (forcePdf viewOnly : Bool) (fileName mimeType : String)
    (printResp embedResp : Except Unit Resp) : Except Unit (Option Outcome) :=
  if (viewOnly || forcePdf) && (containsStr mimeType "pdf" || forcePdf) then
    match viewOnlyAttempts fileName printResp embedResp with
    | .error _ => .ok none
    | .ok r => .ok r
  else .ok none

/-- The Google-Docs branch guarded by its entry condition. -/
def googleAppsStep (fileName mimeType : String) (format : Option String)
    (exportResp : Except Unit Resp) : Except Unit (Option Outcome) :=
  if strStartsWith mimeType "application/vnd.google-apps" then
    googleAppsSection fileName mimeType format exportResp
  else .ok none

/-- Body of the download route's top-level `try`. -/
def mainBlock (fid : String) (format : Option String) (forcePdf viewOnly : Bool)
    (up : Upstream) : Except Unit Outcome :=
  let fileName := (metaNames fid up.metaResp).1
  let mimeType := (metaNames fid up.metaResp).2
  chainStep (viewOnlyStep forcePdf viewOnly fileName mimeType up.printResp up.embedResp)
    fun _ =>
  chainStep (googleAppsStep fileName mimeType format up.exportResp) fun _ =>
  chainStep (standardSection fileName mimeType up.fileResp up.altResp) fun _ =>
  lastResortSection fid fileName mimeType up.directResp

/-- `GET` of the download route: query-parameter intake, the `try` body, and
the top-level catch mapping any escaped error to the structured 500. -/
def downloadGET (fileIdParam formatParam forcePdfParam viewOnlyParam : Option String)
    (up : Upstream) : Outcome :=
  let forcePdf := match forcePdfParam with | some s => s == "true" | none => false
  let viewOnly := match viewOnlyParam with | some s => s == "true" | none => false
  match fileIdParam with
  | none => .jsonError 400 "File ID is required"
  | some fid =>
    if fid == "" then .jsonError 400 "File ID is required"
    else
      match mainBlock fid formatParam forcePdf viewOnly up with
      | .ok o => o
      | .error _ => .jsonError 500 "Failed to download file"

/-! ## The file-metadata route -/

/-- The metadata API response as the info route reads it. -/
structure InfoApiResp where
  status : Nat
  name : Option String
  mimeType : Option String
  size : Option Nat
  canDownload : Option Bool
deriving DecidableEq, Repr

/-- The scrape of the viewer page (its body, or `none` for a non-string
body). -/
structure PageResp where
  data : Option String
deriving DecidableEq, Repr

/-- The JSON record the info route returns on its non-error paths. -/
structure FileInfo where
  id : String
  name : Option String
  mimeType : Option String
  size : Option Nat
  canDownload : Bool
  isGoogleApps : Bool
  isViewOnly : Option Bool
  exportOptions : List String
deriving DecidableEq, Repr

/-- Result of the info route. -/
inductive InfoOutcome where
  | info (rec : FileInfo)
  | jsonError (status : Nat) (msg : String)
deriving DecidableEq, Repr

/-- Scan to the closing `</title>`, as the lazy `(.*?)` of
`/<title>(.*?)<\/title>/` does ( `.` does not cross a newline). -/
def scanToClose : List Char → Option (List Char)
  | [] => none
  | c :: rest =>
    if "</title>".data.isPrefixOf (c :: rest) then some []
    else if c = '\n' then none
    else (scanToClose rest).map (c :: ·)

/-- Match the title regex at the head of the list. -/
def matchTitleAt (cs : List Char) : Option (List Char) :=
  if "<title>".data.isPrefixOf cs then scanToClose (cs.drop "<title>".data.length)
  else none

/-- Leftmost match of `/<title>(.*?)<\/title>/`. -/
def searchTitle : List Char → Option (List Char)
  | [] => none
  | c :: rest =>
    match matchTitleAt (c :: rest) with
    | some t => some t
    | none => searchTitle rest

/-- `s.replace(pat, "")` with a plain-string pattern: removes the first
occurrence only. -/
def replaceFirst (pat : List Char) : List Char → List Char
  | [] => []
  | c :: rest =>
    if pat.isPrefixOf (c :: rest) then (c :: rest).drop pat.length
    else c :: replaceFirst pat rest

/-- The degraded record's name: the page title with a trailing
`" - Google Drive"` removed, else `file_{id}`. -/
def scrapedName (fid : String) (page : Option String) : String :=
  let fallback := "file_" ++ fid
  match page with
  | none => fallback
  | some body =>
    if body == "" then fallback
    else
      match searchTitle body.data with
      | some t =>
        if t = [] then fallback
        else String.mk (replaceFirst " - Google Drive".data t)
      | none => fallback

/-- `isProbablyPdf` of the fallback path. -/
def pageLooksPdf (page : Option String) : Bool :=
  match page with
  | none => false
  | some body =>
    !(body == "") && (containsStr body "pdf.js" || containsStr body "PDF viewer")

/-- `mimeType?.startsWith("application/vnd.google-apps")`. -/
def googleAppsMime (m : Option String) : Bool :=
  match m with
  | some s => strStartsWith s "application/vnd.google-apps"
  | none => false

/-- The `switch` building `exportOptions` on the info route's success path. -/
def exportOptionsFor (m : Option String) : List String :=
  if googleAppsMime m then
    match m with
    | some "application/vnd.google-apps.document" => ["pdf", "docx", "txt", "rtf"]
    | some "application/vnd.google-apps.spreadsheet" => ["xlsx", "csv", "pdf"]
    | some "application/vnd.google-apps.presentation" => ["pptx", "pdf"]
    | _ => ["pdf"]
  else []

/-- `GET` of the file-metadata route.  The API request accepts every status;
a non-200 status takes the scrape fallback, whose own catch yields the 404
error; the top-level catch yields the 500 error. -/
def fileInfoGET (fileIdParam : Option String) (apiResp : Except Unit InfoApiResp)
    (pageResp : Except Unit PageResp) : InfoOutcome :=
  match fileIdParam with
  | none => .jsonError 400 "File ID is required"
  | some fid =>
    if fid == "" then .jsonError 400 "File ID is required"
    else
      match apiResp with
      | .error _ => .jsonError 500 "Failed to get file information"
      | .ok r =>
        if r.status ≠ 200 then
          match pageResp with
          | .error _ => .jsonError 404 "File not found or not accessible"
          | .ok p =>
            let isProbablyPdf := pageLooksPdf p.data
            .info
              { id := fid
                name := some (scrapedName fid p.data)
                mimeType := some (if isProbablyPdf then "application/pdf"
                  else "application/octet-stream")
                size := none
                canDownload := false
                isGoogleApps := false
                isViewOnly := some true
                exportOptions := if isProbablyPdf then ["pdf"] else [] }
        else
          .info
            { id := fid
              name := r.name
              mimeType := r.mimeType
              size := r.size
              canDownload := r.canDownload.getD false
              isGoogleApps := googleAppsMime r.mimeType
              isViewOnly := none
              exportOptions := exportOptionsFor r.mimeType }

/-! ## Auxiliary predicates used by the statements and proofs -/

/-- The character alphabet of a Drive file identifier (`[A-Za-z0-9_-]`). -/
def goodChar (c : Char) : Bool := c.isAlphanum || c = '-' || c = '_'

/-- Every nonempty tail of `pre` already disagrees with `lit` inside `pre`
itself, so a `searchSimple lit` scan can never start a match within `pre`,
whatever follows it. -/
def skipOK (lit : List Char) : List Char → Bool
  | [] => true
  | c :: rest =>
    !((lit.take (c :: rest).length).isPrefixOf (c :: rest)) && skipOK lit rest

/-- The same scan condition for the leading literal of the editor pattern. -/
def skipDocsOK : List Char → Bool
  | [] => true
  | c :: rest =>
    !(("docs.google.com/".data.take (c :: rest).length).isPrefixOf (c :: rest)) &&
      skipDocsOK rest

/-- Shape discipline of the download route's outcomes: deliveries are 200s,
redirects are 302s, structured errors are the 400 or the 500. -/
def wellFormed : Outcome → Prop
  | .deliver st _ _ _ => st = 200
  | .redirect st _ => st = 302
  | .jsonError st _ => st = 400 ∨ st = 500

/-- The spec's invariant on metadata records: `exportOptions` is empty
unless the file is a native Google Apps document. -/
def infoInvariant : InfoOutcome → Prop
  | .info rec => rec.exportOptions = [] ∨ rec.isGoogleApps = true
  | .jsonError _ _ => True

/-! ## Lemmas on the leftmost-match searches -/

theorem isPrefixOf_append_self (l t : List Char) : l.isPrefixOf (l ++ t) = true := by
  simp [List.isPrefixOf_iff_prefix]

theorem isPrefixOf_take_of_append {lit t cs : List Char}
    (h : lit.isPrefixOf (t ++ cs) = true) :
    (lit.take t.length).isPrefixOf t = true := by
  rw [List.isPrefixOf_iff_prefix] at h ⊢
  obtain ⟨u, hu⟩ := h
  have hcong := congrArg (List.take t.length) hu
  rw [List.take_append_eq_append_take, List.take_left] at hcong
  exact ⟨_, hcong⟩

theorem searchSimple_cons (lit : List Char) (cls : Char → Bool) (c : Char)
    (l : List Char) :
    searchSimple lit cls (c :: l) =
      match matchSimpleAt lit cls (c :: l) with
      | some cap => some cap
      | none => searchSimple lit cls l := rfl

theorem matchSimpleAt_none_of_truncated {lit t : List Char} (cls : Char → Bool)
    (cs : List Char) (h : (lit.take t.length).isPrefixOf t = false) :
    matchSimpleAt lit cls (t ++ cs) = none := by
  have hp : lit.isPrefixOf (t ++ cs) = false := by
    cases hx : lit.isPrefixOf (t ++ cs) with
    | false => rfl
    | true => rw [isPrefixOf_take_of_append hx] at h; cases h
  simp [matchSimpleAt, hp]

theorem searchSimple_skip_pre (lit : List Char) (cls : Char → Bool)
    (pre cs : List Char) (h : skipOK lit pre = true) :
    searchSimple lit cls (pre ++ cs) = searchSimple lit cls cs := by
  induction pre with
  | nil => rfl
  | cons c rest ih =>
    rw [skipOK, Bool.and_eq_true] at h
    obtain ⟨h1, h2⟩ := h
    rw [Bool.not_eq_true'] at h1
    have hfail := matchSimpleAt_none_of_truncated (t := c :: rest) cls cs h1
    rw [List.cons_append] at hfail
    rw [List.cons_append, searchSimple_cons, hfail]
    exact ih h2

theorem matchSimpleAt_exact (lit : List Char) (cls : Char → Bool)
    (rest : List Char) :
    matchSimpleAt lit cls (lit ++ rest) =
      (if rest.takeWhile cls = [] then none else some (rest.takeWhile cls)) := by
  simp [matchSimpleAt, isPrefixOf_append_self, List.drop_left]

theorem searchSimple_of_matchAt {lit : List Char} {cls : Char → Bool}
    {cs cap : List Char} (h : matchSimpleAt lit cls cs = some cap) :
    searchSimple lit cls cs = some cap := by
  cases cs with
  | nil =>
    exfalso
    cases lit with
    | nil => simp [matchSimpleAt] at h
    | cons a as => simp [matchSimpleAt, List.isPrefixOf] at h
  | cons c l => rw [searchSimple_cons, h]

theorem searchSimple_none_of_missing {lit : List Char} (cls : Char → Bool)
    {cs : List Char} {c : Char} (hc : c ∈ lit) (hcs : c ∉ cs) :
    searchSimple lit cls cs = none := by
  induction cs with
  | nil => rfl
  | cons x rest ih =>
    have hm : matchSimpleAt lit cls (x :: rest) = none := by
      have hp : lit.isPrefixOf (x :: rest) = false := by
        cases hx : lit.isPrefixOf (x :: rest) with
        | false => rfl
        | true =>
          rw [List.isPrefixOf_iff_prefix] at hx
          exact absurd (hx.subset hc) hcs
      simp [matchSimpleAt, hp]
    rw [searchSimple_cons, hm]
    exact ih (fun hmem => hcs (List.mem_cons_of_mem _ hmem))

theorem takeWhile_append_all {p : Char → Bool} {l₁ : List Char} (l₂ : List Char)
    (h : ∀ a ∈ l₁, p a = true) :
    (l₁ ++ l₂).takeWhile p = l₁ ++ l₂.takeWhile p := by
  induction l₁ with
  | nil => simp
  | cons c cs ih => simp_all [List.takeWhile]

theorem takeWhile_all {p : Char → Bool} {l : List Char}
    (h : ∀ a ∈ l, p a = true) : l.takeWhile p = l := by
  have := takeWhile_append_all (p := p) [] h
  simpa using this

theorem searchDocs_cons (c : Char) (l : List Char) :
    searchDocs (c :: l) =
      match matchDocsAt (c :: l) with
      | some cap => some cap
      | none => searchDocs l := rfl

theorem matchDocsAt_none_of_truncated {t : List Char} (cs : List Char)
    (h : ("docs.google.com/".data.take t.length).isPrefixOf t = false) :
    matchDocsAt (t ++ cs) = none := by
  have hp : "docs.google.com/".data.isPrefixOf (t ++ cs) = false := by
    cases hx : "docs.google.com/".data.isPrefixOf (t ++ cs) with
    | false => rfl
    | true => rw [isPrefixOf_take_of_append hx] at h; cases h
  simp [matchDocsAt, hp]

theorem searchDocs_skip_pre (pre cs : List Char) (h : skipDocsOK pre = true) :
    searchDocs (pre ++ cs) = searchDocs cs := by
  induction pre with
  | nil => rfl
  | cons c rest ih =>
    rw [skipDocsOK, Bool.and_eq_true] at h
    obtain ⟨h1, h2⟩ := h
    rw [Bool.not_eq_true'] at h1
    have hfail := matchDocsAt_none_of_truncated (t := c :: rest) cs h1
    rw [List.cons_append] at hfail
    rw [List.cons_append, searchDocs_cons, hfail]
    exact ih h2

theorem searchDocs_of_matchAt {cs cap : List Char}
    (h : matchDocsAt cs = some cap) : searchDocs cs = some cap := by
  cases cs with
  | nil => simp [matchDocsAt, List.isPrefixOf] at h
  | cons c l => rw [searchDocs_cons, h]

theorem searchDocs_none_of_missing {cs : List Char} {c : Char}
    (hc : c ∈ "docs.google.com/".data) (hcs : c ∉ cs) :
    searchDocs cs = none := by
  induction cs with
  | nil => rfl
  | cons x rest ih =>
    have hm : matchDocsAt (x :: rest) = none := by
      have hp : "docs.google.com/".data.isPrefixOf (x :: rest) = false := by
        cases hx : "docs.google.com/".data.isPrefixOf (x :: rest) with
        | false => rfl
        | true =>
          rw [List.isPrefixOf_iff_prefix] at hx
          exact absurd (hx.subset hc) hcs
      simp [matchDocsAt, hp]
    rw [searchDocs_cons, hm]
    exact ih (fun hmem => hcs (List.mem_cons_of_mem _ hmem))

theorem matchDocsAt_exact (W rest : List Char) (hWne : W ≠ [])
    (hW : ∀ c ∈ W, isWordChar c = true) :
    matchDocsAt ("docs.google.com/".data ++ (W ++ ("/d/".data ++ rest))) =
      (if rest.takeWhile notSlashQ = [] then none
       else some (rest.takeWhile notSlashQ)) := by
  unfold matchDocsAt
  rw [isPrefixOf_append_self, List.drop_left]
  have hw : (W ++ ("/d/".data ++ rest)).takeWhile isWordChar = W := by
    rw [takeWhile_append_all _ hW]
    have : ("/d/".data ++ rest).takeWhile isWordChar = [] := by
      have : isWordChar '/' = false := by decide
      simp [List.takeWhile, this]
    rw [this, List.append_nil]
  simp only [hw, if_neg hWne]
  rw [List.drop_left, isPrefixOf_append_self, List.drop_left]
  simp

/-! ## Identifier-alphabet facts -/

theorem goodChar_ne {c : Char} (h : goodChar c = true) {d : Char}
    (hd : goodChar d = false) : c ≠ d := by
  intro he; rw [he, hd] at h; cases h

theorem goodChar_notSlashQ {c : Char} (h : goodChar c = true) :
    notSlashQ c = true := by
  have h1 : c ≠ '/' := goodChar_ne h (by decide)
  have h2 : c ≠ '?' := goodChar_ne h (by decide)
  simp [notSlashQ, h1, h2]

theorem goodChar_notAmp {c : Char} (h : goodChar c = true) : notAmp c = true := by
  have h1 : c ≠ '&' := goodChar_ne h (by decide)
  simp [notAmp, h1]

theorem no_dot_of_good {id : List Char} (hgood : ∀ c ∈ id, goodChar c = true) :
    '.' ∉ id := fun h => absurd (hgood _ h) (by decide)

theorem no_dot_append {id tail : List Char} (hgood : ∀ c ∈ id, goodChar c = true)
    (htail : '.' ∉ tail) : '.' ∉ id ++ tail := by
  intro hmem
  rcases List.mem_append.mp hmem with h | h
  · exact absurd (hgood _ h) (by decide)
  · exact htail h

theorem capture_run {id tail : List Char} (hgood : ∀ c ∈ id, goodChar c = true)
    (htail : tail.takeWhile notSlashQ = []) :
    (id ++ tail).takeWhile notSlashQ = id := by
  rw [takeWhile_append_all _ (fun a ha => goodChar_notSlashQ (hgood a ha)), htail,
    List.append_nil]

/-! ## The supported link shapes -/

theorem extract_shape_file (id : String) (hne : id.data ≠ [])
    (hgood : ∀ c ∈ id.data, goodChar c = true) :
    extractFileId ("https://drive.google.com/file/d/" ++ id ++ "/view") = some id := by
  have hdata : ("https://drive.google.com/file/d/" ++ id ++ "/view").data =
      "https://".data ++ ("drive.google.com/file/d/".data ++ (id.data ++ "/view".data)) := by
    rw [String.data_append, String.data_append,
      (by decide : ("https://drive.google.com/file/d/" : String).data =
        "https://".data ++ "drive.google.com/file/d/".data)]
    simp [List.append_assoc]
  have hp1 : pat1 (("https://drive.google.com/file/d/" ++ id ++ "/view").data) =
      some id.data := by
    unfold pat1
    rw [hdata, searchSimple_skip_pre _ _ _ _ (by decide)]
    apply searchSimple_of_matchAt
    rw [matchSimpleAt_exact, capture_run hgood (by decide), if_neg hne]
  unfold extractFileId
  rw [hp1]

theorem extract_shape_open (id : String) (hne : id.data ≠ [])
    (hgood : ∀ c ∈ id.data, goodChar c = true) :
    extractFileId ("https://drive.google.com/open?id=" ++ id) = some id := by
  have hdataA : ("https://drive.google.com/open?id=" ++ id).data =
      "https://drive.google.com/open?id=".data ++ id.data := String.data_append _ _
  have hdataB : ("https://drive.google.com/open?id=" ++ id).data =
      "https://".data ++ ("drive.google.com/open?id=".data ++ id.data) := by
    rw [hdataA,
      (by decide : ("https://drive.google.com/open?id=" : String).data =
        "https://".data ++ "drive.google.com/open?id=".data)]
    simp [List.append_assoc]
  have hp1 : pat1 (("https://drive.google.com/open?id=" ++ id).data) = none := by
    unfold pat1
    rw [hdataA, searchSimple_skip_pre _ _ _ _ (by decide)]
    exact searchSimple_none_of_missing _ (by decide) (no_dot_of_good hgood)
  have hp2 : pat2 (("https://drive.google.com/open?id=" ++ id).data) =
      some id.data := by
    unfold pat2
    rw [hdataB, searchSimple_skip_pre _ _ _ _ (by decide)]
    apply searchSimple_of_matchAt
    rw [matchSimpleAt_exact,
      takeWhile_all (fun a ha => goodChar_notAmp (hgood a ha)), if_neg hne]
  unfold extractFileId
  rw [hp1, hp2]

theorem extract_shape_editor (W id : String) (hne : id.data ≠ [])
    (hgood : ∀ c ∈ id.data, goodChar c = true)
    (hWne : W.data ≠ []) (hW : ∀ c ∈ W.data, isWordChar c = true)
    (h1 : skipOK "drive.google.com/file/d/".data
      ("https://docs.google.com/" ++ W ++ "/d/").data = true)
    (h2 : skipOK "drive.google.com/open?id=".data
      ("https://docs.google.com/" ++ W ++ "/d/").data = true) :
    extractFileId ("https://docs.google.com/" ++ W ++ "/d/" ++ id ++ "/edit") =
      some id := by
  have hdataA : ("https://docs.google.com/" ++ W ++ "/d/" ++ id ++ "/edit").data =
      ("https://docs.google.com/" ++ W ++ "/d/").data ++ (id.data ++ "/edit".data) := by
    rw [String.data_append, String.data_append]
    simp [List.append_assoc]
  have hsplitP : ("https://docs.google.com/" ++ W ++ "/d/").data =
      "https://".data ++ ("docs.google.com/".data ++ (W.data ++ "/d/".data)) := by
    rw [String.data_append, String.data_append,
      (by decide : ("https://docs.google.com/" : String).data =
        "https://".data ++ "docs.google.com/".data)]
    simp [List.append_assoc]
  have hdataB : ("https://docs.google.com/" ++ W ++ "/d/" ++ id ++ "/edit").data =
      "https://".data ++ ("docs.google.com/".data ++
        (W.data ++ ("/d/".data ++ (id.data ++ "/edit".data)))) := by
    rw [hdataA, hsplitP]
    simp [List.append_assoc]
  have hmiss : '.' ∉ id.data ++ "/edit".data := no_dot_append hgood (by decide)
  have hp1 : pat1 (("https://docs.google.com/" ++ W ++ "/d/" ++ id ++ "/edit").data) =
      none := by
    unfold pat1
    rw [hdataA, searchSimple_skip_pre _ _ _ _ h1]
    exact searchSimple_none_of_missing _ (by decide) hmiss
  have hp2 : pat2 (("https://docs.google.com/" ++ W ++ "/d/" ++ id ++ "/edit").data) =
      none := by
    unfold pat2
    rw [hdataA, searchSimple_skip_pre _ _ _ _ h2]
    exact searchSimple_none_of_missing _ (by decide) hmiss
  have hp3 : pat3 (("https://docs.google.com/" ++ W ++ "/d/" ++ id ++ "/edit").data) =
      some id.data := by
    unfold pat3
    rw [hdataB, searchDocs_skip_pre _ _ (by decide)]
    apply searchDocs_of_matchAt
    rw [matchDocsAt_exact _ _ hWne hW, capture_run hgood (by decide), if_neg hne]
  unfold extractFileId
  rw [hp1, hp2, hp3]

theorem extract_shape_uc (id : String) (hne : id.data ≠ [])
    (hgood : ∀ c ∈ id.data, goodChar c = true) :
    extractFileId ("https://drive.google.com/uc?id=" ++ id) = some id := by
  have hdataA : ("https://drive.google.com/uc?id=" ++ id).data =
      "https://drive.google.com/uc?id=".data ++ id.data := String.data_append _ _
  have hdataB : ("https://drive.google.com/uc?id=" ++ id).data =
      "https://".data ++ ("drive.google.com/uc?id=".data ++ id.data) := by
    rw [hdataA,
      (by decide : ("https://drive.google.com/uc?id=" : String).data =
        "https://".data ++ "drive.google.com/uc?id=".data)]
    simp [List.append_assoc]
  have hnodot : '.' ∉ id.data := no_dot_of_good hgood
  have hp1 : pat1 (("https://drive.google.com/uc?id=" ++ id).data) = none := by
    unfold pat1
    rw [hdataA, searchSimple_skip_pre _ _ _ _ (by decide)]
    exact searchSimple_none_of_missing _ (by decide) hnodot
  have hp2 : pat2 (("https://drive.google.com/uc?id=" ++ id).data) = none := by
    unfold pat2
    rw [hdataA, searchSimple_skip_pre _ _ _ _ (by decide)]
    exact searchSimple_none_of_missing _ (by decide) hnodot
  have hp3 : pat3 (("https://drive.google.com/uc?id=" ++ id).data) = none := by
    unfold pat3
    rw [hdataA, searchDocs_skip_pre _ _ (by decide)]
    exact searchDocs_none_of_missing (by decide) hnodot
  have hp4 : pat4 (("https://drive.google.com/uc?id=" ++ id).data) =
      some id.data := by
    unfold pat4
    rw [hdataB, searchSimple_skip_pre _ _ _ _ (by decide)]
    apply searchSimple_of_matchAt
    rw [matchSimpleAt_exact,
      takeWhile_all (fun a ha => goodChar_notAmp (hgood a ha)), if_neg hne]
  unfold extractFileId
  rw [hp1, hp2, hp3, hp4]

theorem matchSimpleAt_some_elim {lit : List Char} {cls : Char → Bool}
    {cs cap : List Char} (h : matchSimpleAt lit cls cs = some cap) :
    lit.isPrefixOf cs = true ∧ (cs.drop lit.length).takeWhile cls = cap ∧ cap ≠ [] := by
  unfold matchSimpleAt at h
  by_cases hp : lit.isPrefixOf cs = true
  · rw [if_pos hp] at h
    by_cases hc : (cs.drop lit.length).takeWhile cls = []
    · rw [if_pos hc] at h; cases h
    · rw [if_neg hc] at h
      have he := Option.some.inj h
      exact ⟨hp, he, fun hx => hc (he ▸ hx)⟩
  · rw [if_neg hp] at h; cases h

theorem searchSimple_editor_sub (W : List Char) (hWne : W ≠ [])
    (hW : ∀ c ∈ W, isWordChar c = true) :
    ∀ cs, searchDocs cs = none →
      searchSimple ("docs.google.com/".data ++ (W ++ "/d/".data)) notSlashQ cs = none := by
  intro cs
  induction cs with
  | nil => intro _; rfl
  | cons c rest ih =>
    intro h
    rw [searchDocs_cons] at h
    have hm : matchDocsAt (c :: rest) = none := by
      cases hx : matchDocsAt (c :: rest) with
      | none => rfl
      | some t => rw [hx] at h; cases h
    have hrec : searchDocs rest = none := by rw [hm] at h; exact h
    rw [searchSimple_cons]
    have hmm : matchSimpleAt ("docs.google.com/".data ++ (W ++ "/d/".data)) notSlashQ
        (c :: rest) = none := by
      cases hx : matchSimpleAt ("docs.google.com/".data ++ (W ++ "/d/".data)) notSlashQ
          (c :: rest) with
      | none => rfl
      | some cap =>
        exfalso
        obtain ⟨hp, hcap, hcne⟩ := matchSimpleAt_some_elim hx
        obtain ⟨t, ht⟩ := (List.isPrefixOf_iff_prefix).mp hp
        have hdrop : (c :: rest).drop ("docs.google.com/".data ++ (W ++ "/d/".data)).length = t := by
          rw [← ht, List.drop_left]
        have hdocs : matchDocsAt (c :: rest) =
            (if t.takeWhile notSlashQ = [] then none
             else some (t.takeWhile notSlashQ)) := by
          rw [← ht]
          have hassoc : ("docs.google.com/".data ++ (W ++ "/d/".data)) ++ t =
              "docs.google.com/".data ++ (W ++ ("/d/".data ++ t)) := by
            simp [List.append_assoc]
          rw [hassoc]
          exact matchDocsAt_exact W t hWne hW
        rw [hdrop] at hcap
        rw [hdocs, hcap, if_neg hcne] at hm
        cases hm
    rw [hmm]
    exact ih hrec

theorem pat5_none_of_pat3 {cs : List Char} (h : pat3 cs = none) : pat5 cs = none := by
  unfold pat5
  rw [(by decide : "docs.google.com/spreadsheets/d/".data =
    "docs.google.com/".data ++ ("spreadsheets".data ++ "/d/".data))]
  exact searchSimple_editor_sub "spreadsheets".data (by decide) (by decide) cs h

theorem pat6_none_of_pat3 {cs : List Char} (h : pat3 cs = none) : pat6 cs = none := by
  unfold pat6
  rw [(by decide : "docs.google.com/presentation/d/".data =
    "docs.google.com/".data ++ ("presentation".data ++ "/d/".data))]
  exact searchSimple_editor_sub "presentation".data (by decide) (by decide) cs h

/-! ## Lemmas on the extension table -/

theorem lookupTable_mem {t : List (String × String)} {k v : String}
    (h : lookupTable t k = some v) : ∃ p ∈ t, p.2 = v := by
  induction t with
  | nil => cases h
  | cons p rest ih =>
    obtain ⟨pk, pv⟩ := p
    rw [lookupTable] at h
    by_cases hk : (k == pk) = true
    · rw [if_pos hk] at h
      exact ⟨(pk, pv), List.mem_cons_self _ _, Option.some.inj h⟩
    · rw [if_neg hk] at h
      obtain ⟨q, hq, hv⟩ := ih h
      exact ⟨q, List.mem_cons_of_mem _ hq, hv⟩

theorem mimeTable_lower : ∀ p ∈ mimeToExtension, lowerStr p.2 = p.2 := by decide

/-! ## Claims C7, C9, C10 -/

/-- Claim C7: for all supported link shapes — `file/d/{id}`, `open?id={id}`,
the editor paths `document/d/{id}`, `spreadsheets/d/{id}`,
`presentation/d/{id}`, and `uc?id={id}` — the Identifier Extractor returns
exactly the embedded id, and for every string matching none of the patterns
it returns `none`. -/
theorem C7_extractor_link_shapes (id url : String) (hne : id.data ≠ [])
    (hgood : ∀ c ∈ id.data, goodChar c = true)
    (hno : pat1 url.data = none ∧ pat2 url.data = none ∧ pat3 url.data = none ∧
      pat4 url.data = none ∧ pat5 url.data = none ∧ pat6 url.data = none) :
    extractFileId ("https://drive.google.com/file/d/" ++ id ++ "/view") = some id ∧
    extractFileId ("https://drive.google.com/open?id=" ++ id) = some id ∧
    extractFileId ("https://docs.google.com/document/d/" ++ id ++ "/edit") = some id ∧
    extractFileId ("https://docs.google.com/spreadsheets/d/" ++ id ++ "/edit") = some id ∧
    extractFileId ("https://docs.google.com/presentation/d/" ++ id ++ "/edit") = some id ∧
    extractFileId ("https://drive.google.com/uc?id=" ++ id) = some id ∧
    extractFileId url = none := by
  refine ⟨extract_shape_file id hne hgood, extract_shape_open id hne hgood, ?_, ?_, ?_,
    extract_shape_uc id hne hgood, ?_⟩
  · have h := extract_shape_editor "document" id hne hgood (by decide) (by decide)
      (by decide) (by decide)
    rw [(by decide : ("https://docs.google.com/" ++ "document" ++ "/d/" : String) =
      "https://docs.google.com/document/d/")] at h
    exact h
  · have h := extract_shape_editor "spreadsheets" id hne hgood (by decide) (by decide)
      (by decide) (by decide)
    rw [(by decide : ("https://docs.google.com/" ++ "spreadsheets" ++ "/d/" : String) =
      "https://docs.google.com/spreadsheets/d/")] at h
    exact h
  · have h := extract_shape_editor "presentation" id hne hgood (by decide) (by decide)
      (by decide) (by decide)
    rw [(by decide : ("https://docs.google.com/" ++ "presentation" ++ "/d/" : String) =
      "https://docs.google.com/presentation/d/")] at h
    exact h
  · obtain ⟨h1, h2, h3, h4, h5, h6⟩ := hno
    unfold extractFileId
    rw [h1, h2, h3, h4, h5, h6]

theorem C7_witness :
    extractFileId "https://drive.google.com/file/d/abc123/view" = some "abc123" ∧
    extractFileId "https://example.com/nothing" = none := by
  have h := C7_extractor_link_shapes "abc123" "https://example.com/nothing"
    (by decide) (by decide)
    ⟨by decide, by decide, by decide, by decide, by decide, by decide⟩
  constructor
  · have h1 := h.1
    rw [(by decide : ("https://drive.google.com/file/d/" ++ "abc123" ++ "/view" : String) =
      "https://drive.google.com/file/d/abc123/view")] at h1
    exact h1
  · exact h.2.2.2.2.2.2

/-- Claim C9: the Content-Type Resolver is idempotent on correctly
extensioned inputs — when the base filename's existing extension equals the
table's extension for the resolved content type, and no format is requested,
the filename is returned unchanged. -/
theorem C9_resolver_idempotent (baseName contentType ext expected : String)
    (hext : extOf baseName = some ext)
    (hlook : lookupTable mimeToExtension contentType = some expected)
    (heq : ext = expected) :
    getProperFilename baseName contentType none = baseName := by
  have hlower : lowerStr ext = expected := by
    obtain ⟨p, hp, hv⟩ := lookupTable_mem hlook
    rw [heq, ← hv]
    exact mimeTable_lower p hp
  unfold getProperFilename properFilenameNoFormat
  rw [if_neg (by decide : ¬ strTruthy none = true)]
  rw [hext, hlook]
  simp [hlower]

theorem C9_witness :
    getProperFilename "Report.pdf" "application/pdf" none = "Report.pdf" :=
  C9_resolver_idempotent "Report.pdf" "application/pdf" "pdf" "pdf" (by decide)
    (by decide) rfl

/-- Claim C10: the two identifier extractors agree on every input string —
the explicit `spreadsheets/d` and `presentation/d` patterns are subsumed by
the generic `docs.google.com/\w+/d` pattern tried before them. -/
theorem C10_extractors_agree (url : String) :
    extractFileId url = extractGoogleDriveFileId url := by
  unfold extractFileId extractGoogleDriveFileId
  cases h1 : pat1 url.data with
  | some c => rfl
  | none =>
  cases h2 : pat2 url.data with
  | some c => rfl
  | none =>
  cases h3 : pat3 url.data with
  | some c => rfl
  | none =>
  cases h4 : pat4 url.data with
  | some c => rfl
  | none => rw [pat5_none_of_pat3 h3, pat6_none_of_pat3 h3]

/-! ## Claims C3 and C8 -/

/-- Claim C3 counterexample: with no requested format, a native editor
document's effective export format is `"docx"`, not `"pdf"` as the claim
states. -/
theorem C3_counterexample :
    effectiveExportFormat none "application/vnd.google-apps.document" = "docx" ∧
    effectiveExportFormat none "application/vnd.google-apps.document" ≠ "pdf" := by
  decide

/-- Claim C3 (amended): with no requested format the native-app defaults are
editor document→docx, spreadsheet→xlsx, presentation→pptx, and any other
type→pdf; a given (nonempty) requested format is the effective format. -/
theorem C3_amended_defaults :
    effectiveExportFormat none "application/vnd.google-apps.document" = "docx" ∧
    effectiveExportFormat none "application/vnd.google-apps.spreadsheet" = "xlsx" ∧
    effectiveExportFormat none "application/vnd.google-apps.presentation" = "pptx" ∧
    (∀ m : String, m ≠ "application/vnd.google-apps.document" →
      m ≠ "application/vnd.google-apps.spreadsheet" →
      m ≠ "application/vnd.google-apps.presentation" →
      effectiveExportFormat none m = "pdf") ∧
    (∀ (f m : String), f ≠ "" → effectiveExportFormat (some f) m = f) := by
  refine ⟨rfl, rfl, rfl, ?_, ?_⟩
  · intro m h1 h2 h3
    simp [effectiveExportFormat, strTruthy, orTruthy, h1, h2, h3]
  · intro f m hf
    simp [effectiveExportFormat, strTruthy, orTruthy, hf]

theorem C3_witness :
    effectiveExportFormat none "application/vnd.google-apps.drawing" = "pdf" ∧
    effectiveExportFormat (some "csv") "application/vnd.google-apps.spreadsheet" =
      "csv" :=
  ⟨C3_amended_defaults.2.2.2.1 _ (by decide) (by decide) (by decide),
   C3_amended_defaults.2.2.2.2 "csv" _ (by decide)⟩

/-- Claim C8 counterexample: the degraded record built when the metadata
probe gets a non-success status and the scraped page carries PDF-viewer
markers has `exportOptions = ["pdf"]` with `isGoogleApps = false` — the
claimed invariant fails on it. -/
theorem C8_counterexample :
    ¬ infoInvariant (fileInfoGET (some "abc") (.ok ⟨403, none, none, none, none⟩)
      (.ok ⟨some "<html><title>My Doc - Google Drive</title>pdf.js</html>"⟩)) := by
  have h : fileInfoGET (some "abc") (.ok ⟨403, none, none, none, none⟩)
      (.ok ⟨some "<html><title>My Doc - Google Drive</title>pdf.js</html>"⟩) =
      .info ⟨"abc", some "My Doc", some "application/pdf", none, false, false,
        some true, ["pdf"]⟩ := by decide
  rw [h]
  simp [infoInvariant]

theorem exportOptionsFor_empty_or (m : Option String) :
    exportOptionsFor m = [] ∨ googleAppsMime m = true := by
  unfold exportOptionsFor
  by_cases hg : googleAppsMime m = true
  · right; exact hg
  · left; rw [if_neg hg]

/-- Claim C8 (amended): every record the metadata route returns has empty
`exportOptions` unless `isGoogleApps` is true, except the degraded record
with PDF-viewer markers, which carries `exportOptions = ["pdf"]` together
with `isViewOnly = true`. -/
theorem C8_amended_invariant (fileIdParam : Option String)
    (apiResp : Except Unit InfoApiResp) (pageResp : Except Unit PageResp)
    (rec : FileInfo)
    (h : fileInfoGET fileIdParam apiResp pageResp = .info rec) :
    rec.exportOptions = [] ∨ rec.isGoogleApps = true ∨
      (rec.isViewOnly = some true ∧ rec.exportOptions = ["pdf"]) := by
  unfold fileInfoGET at h
  repeat' split at h
  all_goals cases h
  all_goals try exact (exportOptionsFor_empty_or _).elim Or.inl (fun hg => Or.inr (Or.inl hg))
  all_goals (simp only []; split <;> decide)

theorem C8_witness :
    (["pdf"] : List String) = [] ∨ false = true ∨
      ((some true : Option Bool) = some true ∧ (["pdf"] : List String) = ["pdf"]) :=
  C8_amended_invariant (some "abc") (.ok ⟨403, none, none, none, none⟩)
    (.ok ⟨some "x pdf.js"⟩)
    ⟨"abc", some "file_abc", some "application/pdf", none, false, false, some true,
      ["pdf"]⟩ (by decide)

/-! ## Claim C4 -/

/-- Claim C4: on every successful native-app export the outbound content type
is the static format→MIME table's entry for the effective format (with the
`application/octet-stream` fallback), whatever content-type header the export
response declares; in particular a native spreadsheet with no requested
format is delivered with the spreadsheet interchange MIME type and a
filename ending in `.xlsx` even when the export endpoint declares
`text/html`. -/
theorem C4_export_static_content_type :
    (∀ (fileName mimeType : String) (format : Option String) (ex : Resp)
        (st : Nat) (ct fn : String) (p : Option Payload),
      googleAppsSection fileName mimeType format (.ok ex) =
        .ok (some (.deliver st ct fn p)) →
      ct = (lookupTable contentTypeMap (effectiveExportFormat format mimeType)).getD
        "application/octet-stream") ∧
    googleAppsSection "Budget" "application/vnd.google-apps.spreadsheet" none
        (.ok ⟨200, some "text/html", some ⟨9, 5000⟩⟩) =
      .ok (some (.deliver 200
        "application/vnd.openxmlformats-officedocument.spreadsheetml.sheet"
        "Budget.xlsx" (some ⟨9, 5000⟩))) ∧
    strEndsWith "Budget.xlsx" ".xlsx" = true := by
  refine ⟨?_, by decide, by decide⟩
  intro fileName mimeType format ex st ct fn p h
  unfold googleAppsSection axiosReq at h
  repeat' split at h
  all_goals simp_all

theorem C4_witness :
    "application/vnd.openxmlformats-officedocument.spreadsheetml.sheet" =
      (lookupTable contentTypeMap
        (effectiveExportFormat none "application/vnd.google-apps.spreadsheet")).getD
        "application/octet-stream" :=
  C4_export_static_content_type.1 "Budget" "application/vnd.google-apps.spreadsheet"
    none ⟨200, some "text/html", some ⟨9, 5000⟩⟩ 200
    "application/vnd.openxmlformats-officedocument.spreadsheetml.sheet"
    "Budget.xlsx" (some ⟨9, 5000⟩) (by decide)

/-! ## Claim C2 -/

/-- Claim C2 counterexample: in the view-only/forced-PDF path the second
(embed) sub-attempt wins with a 50-byte payload, far below the minimum byte
threshold the claim says every winning sub-attempt must pass. -/
theorem C2_counterexample :
    downloadGET (some "f1") none none (some "true")
      { metaResp := .ok ⟨200, some "report", some "application/pdf"⟩
        printResp := .ok ⟨200, some "text/html", some ⟨1, 50⟩⟩
        embedResp := .ok ⟨200, some "text/html", some ⟨2, 50⟩⟩
        exportResp := .error (), fileResp := .error (), altResp := .error ()
        directResp := .error () } =
      .deliver 200 "application/pdf" "report.pdf" (some ⟨2, 50⟩) := by decide

/-- Claim C2 (amended): only the first (print) sub-attempt of the view-only
path enforces validation with the minimum byte threshold (payload > 1000
bytes, no HTML marker); the second (embed) sub-attempt wins on any 200
response regardless of payload.  In the chain scenario — `viewOnly=true`,
metadata type `application/pdf` — the first sub-attempt (200, 50-byte
interstitial body) is rejected, the second (200, 40,000-byte non-interstitial
body) is accepted, and the final filename ends in `.pdf`. -/
theorem C2_viewonly_subattempts :
    (∀ (fn : String) (pr er : Resp) (o : Outcome),
      viewOnlyAttempts fn (.ok pr) (.ok er) = .ok (some o) →
      (pr.status = 200 ∧ pr.data.isSome = true ∧ pr.byteLength > 1000 ∧
        respCtIncludes pr "text/html" = false) ∨ er.status = 200) ∧
    downloadGET (some "f1") none none (some "true")
      { metaResp := .ok ⟨200, some "report", some "application/pdf"⟩
        printResp := .ok ⟨200, some "text/html", some ⟨1, 50⟩⟩
        embedResp := .ok ⟨200, some "application/pdf", some ⟨2, 40000⟩⟩
        exportResp := .error (), fileResp := .error (), altResp := .error ()
        directResp := .error () } =
      .deliver 200 "application/pdf" "report.pdf" (some ⟨2, 40000⟩) ∧
    strEndsWith "report.pdf" ".pdf" = true := by
  refine ⟨?_, by decide, by decide⟩
  intro fn pr er o h
  unfold viewOnlyAttempts axiosReq at h
  repeat' split at h
  all_goals simp_all [Bool.not_eq_true]

theorem C2_witness :
    ((200 = 200 ∧ Option.isSome (some (Payload.mk 1 50)) = true ∧
        Resp.byteLength ⟨200, some "text/html", some ⟨1, 50⟩⟩ > 1000 ∧
        respCtIncludes ⟨200, some "text/html", some ⟨1, 50⟩⟩ "text/html" = false) ∨
      (200 = 200)) :=
  C2_viewonly_subattempts.1 "report" ⟨200, some "text/html", some ⟨1, 50⟩⟩
    ⟨200, some "application/pdf", some ⟨2, 40000⟩⟩
    (.deliver 200 "application/pdf" "report.pdf" (some ⟨2, 40000⟩)) (by decide)

/-! ## Claim C1 -/

/-- Claim C1 counterexample: a 200 response with content type containing
`text/html` and byteLength 500 IS delivered by the direct-download path —
the validator flags it and the alternate URL is tried, but when that retry
fails (here: status 404) the flagged response is delivered anyway. -/
theorem C1_counterexample :
    downloadGET (some "f9") none none none
      { metaResp := .error (), printResp := .error (), embedResp := .error ()
        exportResp := .error ()
        fileResp := .ok ⟨200, some "text/html", some ⟨7, 500⟩⟩
        altResp := .ok ⟨404, none, none⟩
        directResp := .error () } =
      .deliver 200 "text/html" "file_f9.html" (some ⟨7, 500⟩) := by decide

/-- Claim C1 (amended): the interstitial heuristic flags an HTML-marked
content type with byteLength 500 and accepts one with byteLength 2,000,000.
On the direct-download path a flagged 200 response is not delivered when the
alternate-URL retry yields a validated response — the alternate's payload is
delivered instead; when the retry fails, the flagged response itself is
delivered as a fallback.  A 200 HTML-marked response of 2,000,000 bytes is
delivered directly, without consulting the alternate. -/
theorem C1_direct_path_validator :
    isLikelyErrorPage "text/html" 500 = true ∧
    isLikelyErrorPage "text/html" 2000000 = false ∧
    (∀ (fn mt : String) (t : Nat) (ar : Resp), ar.status = 200 →
      containsStr (orTruthy ar.contentType mt) "text/html" = false →
      standardSection fn mt (.ok ⟨200, some "text/html", some ⟨t, 500⟩⟩) (.ok ar) =
        .ok (some (.deliver 200 (orTruthy ar.contentType mt)
          (getProperFilename fn (orTruthy ar.contentType mt) none) ar.data))) ∧
    (∀ (fn mt : String) (t : Nat) (altResp : Except Unit Resp),
      standardSection fn mt (.ok ⟨200, some "text/html", some ⟨t, 2000000⟩⟩) altResp =
        .ok (some (.deliver 200 "text/html"
          (getProperFilename fn "text/html" none) (some ⟨t, 2000000⟩)))) ∧
    (∀ (fn mt : String) (t : Nat) (ar : Resp), ar.status ≠ 200 →
      standardSection fn mt (.ok ⟨200, some "text/html", some ⟨t, 500⟩⟩) (.ok ar) =
        .ok (some (.deliver 200 "text/html"
          (getProperFilename fn "text/html" none) (some ⟨t, 500⟩)))) := by
  refine ⟨by decide, by decide, ?_, ?_, ?_⟩
  · intro fn mt t ar har hct
    have hfr : orTruthy (some "text/html") mt = "text/html" := by simp [orTruthy]
    unfold standardSection axiosReq
    simp [Resp.byteLength, hfr, har, hct, isLikelyErrorPage,
      (by decide : containsStr "text/html" "text/html" = true)]
  · intro fn mt t altResp
    have hfr : orTruthy (some "text/html") mt = "text/html" := by simp [orTruthy]
    unfold standardSection axiosReq
    simp [Resp.byteLength, hfr, isLikelyErrorPage,
      (by decide : containsStr "text/html" "text/html" = true)]
  · intro fn mt t ar har
    have hfr : orTruthy (some "text/html") mt = "text/html" := by simp [orTruthy]
    unfold standardSection axiosReq
    simp [Resp.byteLength, hfr, har, isLikelyErrorPage,
      (by decide : containsStr "text/html" "text/html" = true)]

theorem C1_witness :
    standardSection "file_f9" "application/octet-stream"
      (.ok ⟨200, some "text/html", some ⟨7, 500⟩⟩) (.ok ⟨404, none, none⟩) =
    .ok (some (.deliver 200 "text/html"
      (getProperFilename "file_f9" "text/html" none) (some ⟨7, 500⟩))) :=
  C1_direct_path_validator.2.2.2.2 "file_f9" "application/octet-stream" 7
    ⟨404, none, none⟩ (by decide)

/-! ## Claim C5 -/

/-- Claim C5 counterexample: the native-app export attempt raises on a
non-success upstream status (its `validateStatus` accepts only 200) and no
per-attempt catch exists, so the chain does not advance — the handler returns
the structured 500 even though the standard download endpoint holds a
perfectly good 200 response. -/
theorem C5_counterexample :
    downloadGET (some "f1") none none none
      { metaResp := .ok ⟨200, some "Budget",
          some "application/vnd.google-apps.document"⟩
        printResp := .error (), embedResp := .error ()
        exportResp := .ok ⟨404, none, none⟩
        fileResp := .ok ⟨200, some "application/pdf", some ⟨3, 5000⟩⟩
        altResp := .error (), directResp := .error () } =
      .jsonError 500 "Failed to download file" := by decide

/-- Claim C5 (amended): the view-only sub-attempts never raise on any status
(their validators accept everything and the block has its own catch), but the
native-app export attempt raises on every non-200 status, the standard
download attempt on every status outside {200, 303, 302}, the last-resort
attempt on every non-200 status, and these failures are caught only by the
handler's top-level catch, which returns the structured 500 error instead of
advancing the chain to the next strategy. -/
theorem C5_attempt_raise_behaviour :
    (∀ (fn : String) (pr er : Resp),
      viewOnlyAttempts fn (.ok pr) (.ok er) ≠ .error ()) ∧
    (∀ (fn mt : String) (fmt : Option String) (ex : Resp), ex.status ≠ 200 →
      googleAppsSection fn mt fmt (.ok ex) = .error ()) ∧
    (∀ (fn mt : String) (fr : Resp) (altResp : Except Unit Resp),
      fr.status ≠ 200 → fr.status ≠ 303 → fr.status ≠ 302 →
      standardSection fn mt (.ok fr) altResp = .error ()) ∧
    (∀ (fid fn mt : String) (dr : Resp), dr.status ≠ 200 →
      lastResortSection fid fn mt (.ok dr) = .error ()) ∧
    (∀ (fid name : String) (fmt : Option String) (ex : Resp)
        (pr er fileR altR dirR : Except Unit Resp),
      fid ≠ "" → ex.status ≠ 200 →
      downloadGET (some fid) fmt none none
        { metaResp := .ok ⟨200, some name,
            some "application/vnd.google-apps.document"⟩
          printResp := pr, embedResp := er, exportResp := .ok ex
          fileResp := fileR, altResp := altR, directResp := dirR } =
        .jsonError 500 "Failed to download file") := by
  have hexp : ∀ (fn mt : String) (fmt : Option String) (ex : Resp),
      ex.status ≠ 200 → googleAppsSection fn mt fmt (.ok ex) = .error () := by
    intro fn mt fmt ex hv
    unfold googleAppsSection axiosReq
    simp [hv]
  refine ⟨?_, hexp, ?_, ?_, ?_⟩
  · intro fn pr er h
    unfold viewOnlyAttempts axiosReq at h
    repeat' split at h
    all_goals simp_all
  · intro fn mt fr altResp h1 h2 h3
    unfold standardSection axiosReq
    simp [h1, h2, h3]
  · intro fid fn mt dr hd
    unfold lastResortSection axiosReq
    simp [hd]
  · intro fid name fmt ex pr er fileR altR dirR hfid hex
    simp only [downloadGET]
    rw [if_neg (by simp [hfid])]
    have hmain : mainBlock fid fmt false false
        { metaResp := .ok ⟨200, some name,
            some "application/vnd.google-apps.document"⟩
          printResp := pr, embedResp := er, exportResp := .ok ex
          fileResp := fileR, altResp := altR, directResp := dirR } = .error () := by
      simp only [mainBlock]
      have hmime : (metaNames fid (.ok ⟨200, some name,
          some "application/vnd.google-apps.document"⟩)).2 =
          "application/vnd.google-apps.document" := by
        simp [metaNames, axiosMeta, orTruthy]
      rw [hmime]
      have hstep1 : viewOnlyStep false false
          (metaNames fid (.ok ⟨200, some name,
            some "application/vnd.google-apps.document"⟩)).1
          "application/vnd.google-apps.document" pr er = .ok none := by
        simp [viewOnlyStep]
      rw [hstep1]
      have hstep2 : googleAppsStep
          (metaNames fid (.ok ⟨200, some name,
            some "application/vnd.google-apps.document"⟩)).1
          "application/vnd.google-apps.document" fmt (.ok ex) = .error () := by
        unfold googleAppsStep
        rw [if_pos (by decide)]
        exact hexp _ _ _ _ hex
      rw [hstep2]
      rfl
    rw [hmain]

theorem C5_witness :
    viewOnlyAttempts "doc" (.ok ⟨503, none, none⟩) (.ok ⟨503, none, none⟩) ≠
      .error () ∧
    googleAppsSection "doc" "application/vnd.google-apps.document" none
      (.ok ⟨404, none, none⟩) = .error () ∧
    standardSection "doc" "application/pdf" (.ok ⟨404, none, none⟩) (.error ()) =
      .error () ∧
    lastResortSection "f1" "doc" "application/pdf" (.ok ⟨404, none, none⟩) =
      .error () ∧
    downloadGET (some "f1") none none none
      { metaResp := .ok ⟨200, some "Budget",
          some "application/vnd.google-apps.document"⟩
        printResp := .error (), embedResp := .error ()
        exportResp := .ok ⟨404, none, none⟩
        fileResp := .ok ⟨200, some "application/pdf", some ⟨3, 5000⟩⟩
        altResp := .error (), directResp := .error () } =
      .jsonError 500 "Failed to download file" :=
  ⟨C5_attempt_raise_behaviour.1 "doc" ⟨503, none, none⟩ ⟨503, none, none⟩,
   C5_attempt_raise_behaviour.2.1 "doc" "application/vnd.google-apps.document"
     none ⟨404, none, none⟩ (by decide),
   C5_attempt_raise_behaviour.2.2.1 "doc" "application/pdf" ⟨404, none, none⟩
     (.error ()) (by decide) (by decide) (by decide),
   C5_attempt_raise_behaviour.2.2.2.1 "f1" "doc" "application/pdf"
     ⟨404, none, none⟩ (by decide),
   C5_attempt_raise_behaviour.2.2.2.2 "f1" "Budget" none ⟨404, none, none⟩
     (.error ()) (.error ()) (.ok ⟨200, some "application/pdf", some ⟨3, 5000⟩⟩)
     (.error ()) (.error ()) (by decide) (by decide)⟩

/-! ## Claim C6 -/

theorem viewOnlyAttempts_wf {fn : String} {p e : Except Unit Resp} {o : Outcome}
    (h : viewOnlyAttempts fn p e = .ok (some o)) : wellFormed o := by
  unfold viewOnlyAttempts axiosReq at h
  repeat' split at h
  all_goals try simp_all [wellFormed]
  all_goals (subst h; simp)

theorem googleAppsSection_wf {fn mt : String} {fmt : Option String}
    {ex : Except Unit Resp} {o : Outcome}
    (h : googleAppsSection fn mt fmt ex = .ok (some o)) : wellFormed o := by
  unfold googleAppsSection axiosReq at h
  repeat' split at h
  all_goals try simp_all [wellFormed]
  all_goals (subst h; simp)

theorem standardSection_wf {fn mt : String} {fr ar : Except Unit Resp} {o : Outcome}
    (h : standardSection fn mt fr ar = .ok (some o)) : wellFormed o := by
  unfold standardSection axiosReq at h
  rcases fr with e | f
  · simp only [] at h; cases h
  · simp only [] at h
    by_cases hv : f.status = 200 ∨ f.status = 303 ∨ f.status = 302
    · rw [if_pos (decide_eq_true hv)] at h
      simp only [] at h
      by_cases hd : f.status = 200 ∧ f.data.isSome = true
      · rw [if_pos hd] at h
        by_cases hint : isLikelyErrorPage (orTruthy f.contentType mt) f.byteLength = true
        · rw [if_pos hint] at h
          rcases ar with e2 | a
          · simp only [] at h; cases h
          · simp only [if_true] at h
            by_cases hacc : a.status = 200 ∧
                (¬ containsStr (orTruthy a.contentType mt) "text/html" = true ∨
                  a.byteLength > 1000000)
            · rw [if_pos hacc] at h
              have he := Option.some.inj (Except.ok.inj h)
              subst he; rfl
            · rw [if_neg hacc] at h
              have he := Option.some.inj (Except.ok.inj h)
              subst he; rfl
        · rw [if_neg hint] at h
          have he := Option.some.inj (Except.ok.inj h)
          subst he; rfl
      · rw [if_neg hd] at h; simp at h
    · rw [if_neg (fun hc => hv (of_decide_eq_true hc))] at h; simp at h

theorem lastResortSection_wf {fid fn mt : String} {d : Except Unit Resp} {o : Outcome}
    (h : lastResortSection fid fn mt d = .ok o) : wellFormed o := by
  unfold lastResortSection axiosReq at h
  repeat' split at h
  all_goals try simp_all [wellFormed]
  all_goals (subst h; simp)

theorem viewOnlyStep_wf {fp vo : Bool} {fn mt : String} {p e : Except Unit Resp}
    {o : Outcome} (h : viewOnlyStep fp vo fn mt p e = .ok (some o)) :
    wellFormed o := by
  unfold viewOnlyStep at h
  split at h
  · cases hv : viewOnlyAttempts fn p e with
    | error err => rw [hv] at h; simp at h
    | ok r =>
      rw [hv] at h
      cases r with
      | none => simp at h
      | some o' =>
        have he : o' = o := by simpa using h
        subst he
        exact viewOnlyAttempts_wf hv
  · simp at h

theorem googleAppsStep_wf {fn mt : String} {fmt : Option String}
    {ex : Except Unit Resp} {o : Outcome}
    (h : googleAppsStep fn mt fmt ex = .ok (some o)) : wellFormed o := by
  unfold googleAppsStep at h
  split at h
  · exact googleAppsSection_wf h
  · simp at h

theorem chainStep_wf {s : Except Unit (Option Outcome)}
    {next : Unit → Except Unit Outcome} {o : Outcome}
    (hs : ∀ o', s = .ok (some o') → wellFormed o')
    (hn : ∀ o', next () = .ok o' → wellFormed o')
    (h : chainStep s next = .ok o) : wellFormed o := by
  cases s with
  | error e => simp [chainStep] at h
  | ok v =>
    cases v with
    | some o' =>
      have he : o' = o := by simpa [chainStep] using h
      subst he
      exact hs _ rfl
    | none => exact hn _ (by simpa [chainStep] using h)

theorem mainBlock_wf {fid : String} {fmt : Option String} {fp vo : Bool}
    {up : Upstream} {o : Outcome} (h : mainBlock fid fmt fp vo up = .ok o) :
    wellFormed o := by
  unfold mainBlock at h
  refine chainStep_wf (fun o1 h1 => viewOnlyStep_wf h1) (fun o1 h1 => ?_) h
  refine chainStep_wf (fun o2 h2 => googleAppsStep_wf h2) (fun o2 h2 => ?_) h1
  exact chainStep_wf (fun o3 h3 => standardSection_wf h3)
    (fun o3 h3 => lastResortSection_wf h3) h2

/-- Claim C6 counterexample: an input on which every retrieval strategy fails
(the standard download answers 404) whose outcome is the structured 500 JSON
error, not the claimed redirect to the viewer page. -/
theorem C6_counterexample :
    downloadGET (some "f1") none none none
      { metaResp := .ok ⟨200, some "doc", some "application/octet-stream"⟩
        printResp := .error (), embedResp := .error (), exportResp := .error ()
        fileResp := .ok ⟨404, none, none⟩
        altResp := .error (), directResp := .error () } =
      .jsonError 500 "Failed to download file" := by decide

/-- Claim C6 (amended): the handler returns a well-formed response on every
input — a 200 delivery, a 302 redirect, or a structured 400/500 JSON error —
and the redirect-to-viewer fallback is the outcome when the chain falls
through without a raise (the standard download resolves to a redirect status
and the last-resort attempt returns 200 without a body); but a strategy
failing with a status outside its accept list surfaces as the structured 500
error, not as the redirect. -/
theorem C6_fallback_behaviour :
    (∀ (a b c d : Option String) (up : Upstream),
      wellFormed (downloadGET a b c d up)) ∧
    (∀ (fid : String) (fmt : Option String) (pr er ex altR : Except Unit Resp)
        (fct dct : Option String),
      fid ≠ "" →
      downloadGET (some fid) fmt none none
        { metaResp := .error (), printResp := pr, embedResp := er
          exportResp := ex, fileResp := .ok ⟨302, fct, none⟩, altResp := altR
          directResp := .ok ⟨200, dct, none⟩ } =
        .redirect 302 ("https://drive.google.com/file/d/" ++ fid ++ "/view")) := by
  have handle_wf : ∀ m : Except Unit Outcome, (∀ o, m = .ok o → wellFormed o) →
      wellFormed (match m with
        | .ok o => o
        | .error _ => .jsonError 500 "Failed to download file") := by
    intro m hm
    cases m with
    | ok o => exact hm o rfl
    | error e => simp [wellFormed]
  constructor
  · intro a b c d up
    unfold downloadGET
    cases a with
    | none => simp [wellFormed]
    | some fid =>
      simp only []
      by_cases hf : (fid == "") = true
      · rw [if_pos hf]; simp [wellFormed]
      · rw [if_neg hf]
        exact handle_wf _ (fun o ho => mainBlock_wf ho)
  · intro fid fmt pr er ex altR fct dct hfid
    simp only [downloadGET]
    rw [if_neg (by simp [hfid])]
    have hmain : mainBlock fid fmt false false
        { metaResp := .error (), printResp := pr, embedResp := er
          exportResp := ex, fileResp := .ok ⟨302, fct, none⟩, altResp := altR
          directResp := .ok ⟨200, dct, none⟩ } =
        .ok (.redirect 302 ("https://drive.google.com/file/d/" ++ fid ++ "/view")) := by
      simp only [mainBlock]
      have hmeta1 : (metaNames fid (.error ())).1 = "file_" ++ fid := by
        simp [metaNames, axiosMeta]
      have hmeta2 : (metaNames fid (.error ())).2 = "application/octet-stream" := by
        simp [metaNames, axiosMeta]
      rw [hmeta1, hmeta2]
      rw [show viewOnlyStep false false ("file_" ++ fid) "application/octet-stream"
          pr er = .ok none by simp [viewOnlyStep]]
      rw [show googleAppsStep ("file_" ++ fid) "application/octet-stream" fmt ex =
          .ok none by
        unfold googleAppsStep
        rw [if_neg (by decide)]]
      rw [show standardSection ("file_" ++ fid) "application/octet-stream"
          (.ok ⟨302, fct, none⟩) altR = .ok none by
        unfold standardSection axiosReq
        simp]
      rfl
    rw [hmain]

theorem C6_witness :
    downloadGET (some "f1") none none none
      { metaResp := .error (), printResp := .error (), embedResp := .error ()
        exportResp := .error (), fileResp := .ok ⟨302, none, none⟩
        altResp := .error (), directResp := .ok ⟨200, none, none⟩ } =
      .redirect 302 "https://drive.google.com/file/d/f1/view" := by
  have h := C6_fallback_behaviour.2 "f1" none (.error ()) (.error ()) (.error ())
    (.error ()) none none (by decide)
  rw [(by decide : ("https://drive.google.com/file/d/" ++ "f1" ++ "/view" : String) =
    "https://drive.google.com/file/d/f1/view")] at h
  exact h

end GDrive
